import Mathlib

/-!
Shallow embedding of the mini-SQL engine (`engine.py`): query parsing,
condition evaluation and query execution. Table loading, the REPL loop and
pretty-printing are external collaborators and are not modelled; the
execution function is parameterised by the already-loaded rows.

Python exceptions are modelled by `Except QueryError`; the Python value
`None` returned by `evaluate_conditions` is modelled by `Option.none`.
Python string primitives (`strip`, `lower`, `upper`, `split`, slicing)
are modelled by executable character-list functions so that every
definition evaluates inside Lean.
-/

deriving instance DecidableEq for Except

/-- A row: mapping from column name to text value (Python dict, modelled as
an association list with unique keys; `List.lookup` finds the first match). -/
abbrev Row := List (String × String)

/-- One WHERE predicate, as built by `parse_where_clause`
(`{'col':..., 'op':..., 'raw_val':...}`). -/
structure Condition where
  col : String
  op : String
  raw_val : String
deriving DecidableEq

/-- Logical connector token (the parser stores `tokens[i].upper()`, so only
these two values occur). -/
inductive LogOp
  | AND
  | OR
deriving DecidableEq

/-- An element of a parsed condition list: a predicate dict or an
AND/OR string. -/
inductive CondElem
  | cond (c : Condition)
  | logop (o : LogOp)
deriving DecidableEq

/-- The dictionary returned by `parse_query`. -/
structure ParsedQuery where
  select : List String
  fromTable : String
  whereConds : Option (List CondElem)
  raw_sql : String
deriving DecidableEq

/-- Exceptions the modelled code can raise: `ParseError`, the `ValueError`
raised by `shlex.split` on an unclosed quotation, the `KeyError` of a missing
column, and the `UnboundLocalError` of `prev_op` in `evaluate_conditions`. -/
inductive QueryError
  | parseErr (msg : String)
  | valueErr (msg : String)
  | keyErr (col : String)
  | nameErr
deriving DecidableEq

/-- Result of `try_parse_number`: a Python int, a Python float (modelled
exactly as the scaled decimal `m / 10 ^ e` denoted by the literal) or the
original (stripped) string. -/
inductive Value
  | intV (n : Int)
  | floatV (m : Int) (e : Nat)
  | strV (s : String)
deriving DecidableEq

/-- Result of `execute_query`: plain rows or `(expr, count)` aggregate pairs. -/
inductive QueryResult
  | rowsRes (rows : List Row)
  | aggRes (counts : List (String × Nat))
deriving DecidableEq

-- ------------------------ String primitives ------------------------

/-- The single-quote character (code point 39). -/
def squoteChar : Char := Char.ofNat 39

/-- Whitespace for Python `str.strip` (space, tab, newline, carriage
return, vertical tab, form feed). -/
def wsChar (c : Char) : Bool :=
  c = ' ' ∨ c = '\t' ∨ c = '\n' ∨ c = '\r' ∨ c = Char.ofNat 11 ∨ c = Char.ofNat 12

/-- Models Python `s.strip()`. -/
def strTrim (s : String) : String :=
  String.mk (((s.toList.dropWhile wsChar).reverse.dropWhile wsChar).reverse)

/-- ASCII lower-casing of one character (`str.lower` on the engine's
ASCII inputs). -/
def lowChar (c : Char) : Char :=
  if 'A' ≤ c ∧ c ≤ 'Z' then Char.ofNat (c.toNat + 32) else c

/-- ASCII upper-casing of one character. -/
def upChar (c : Char) : Char :=
  if 'a' ≤ c ∧ c ≤ 'z' then Char.ofNat (c.toNat - 32) else c

/-- Models Python `s.lower()` on ASCII text. -/
def strLower (s : String) : String := String.mk (s.toList.map lowChar)

/-- Models Python `s.upper()` on ASCII text. -/
def strUpper (s : String) : String := String.mk (s.toList.map upChar)

/-- Models Python `s.split(',')` (keeps empty pieces). -/
def splitCommaAux : List Char → List Char → List String
  | [], cur => [String.mk cur.reverse]
  | c :: rest, cur =>
    if c = ',' then String.mk cur.reverse :: splitCommaAux rest []
    else splitCommaAux rest (c :: cur)

/-- Comma-splitting of a string. -/
def splitComma (s : String) : List String := splitCommaAux s.toList []

/-- Python slice `s[:n]`. -/
def strTake (s : String) (n : Nat) : String := String.mk (s.toList.take n)

/-- Python slice `s[n:]`. -/
def strDrop (s : String) (n : Nat) : String := String.mk (s.toList.drop n)

/-- Python slice `s[a:b]` for nonnegative bounds. -/
def sliceStr (s : String) (a b : Nat) : String :=
  String.mk ((s.toList.drop a).take (b - a))

/-- True when `needle` is an initial segment of `hay`. -/
def leadsWith : List Char → List Char → Bool
  | [], _ => true
  | _ :: _, [] => false
  | a :: as, b :: bs => a = b && leadsWith as bs

/-- Index of the first occurrence of `needle` in `hay` (`str.find`),
`none` when absent. -/
def firstOccAux (needle : List Char) : List Char → Option Nat
  | [] => if needle.isEmpty then some 0 else none
  | c :: rest =>
    if leadsWith needle (c :: rest) then some 0
    else (firstOccAux needle rest).map (· + 1)

/-- `hay.find(needle)` as an `Option Nat`. -/
def firstOcc? (hay needle : String) : Option Nat :=
  firstOccAux needle.toList hay.toList

/-- Python `needle in hay` substring test. -/
def substrIn (needle hay : String) : Bool := (firstOcc? hay needle).isSome

/-- Decimal digit character of a value below ten. -/
def digitChar (n : Nat) : Char := Char.ofNat (48 + n)

/-- Decimal digits of a natural number, most significant first
(fuel-driven so that it evaluates by reduction). -/
def natDigitsAux : Nat → Nat → List Char
  | 0, _ => []
  | fuel + 1, n =>
    if n < 10 then [digitChar n]
    else natDigitsAux fuel (n / 10) ++ [digitChar (n % 10)]

/-- Models Python `str` of a nonnegative int. -/
def natToStr (n : Nat) : String := String.mk (natDigitsAux (n + 1) n)

/-- Models Python `str` of an int. -/
def intToStr (i : Int) : String :=
  if i < 0 then "-" ++ natToStr i.natAbs else natToStr i.natAbs

-- ------------------------ Helpers ------------------------

/-- `normalize_colname`: strip and lower-case. -/
def normalize_colname (c : String) : String := strLower (strTrim c)

/-- `unquote_value`: strip, and remove one matching pair of single quotes. -/
def unquote_value (token : String) : String :=
  let t := (strTrim token).toList
  if t.length ≥ 2 ∧ t.head? = some squoteChar ∧ t.getLast? = some squoteChar then
    String.mk ((t.drop 1).dropLast)
  else String.mk t

/-- Value of a nonempty all-digit character list (`none` otherwise). -/
def digitsToNat? (l : List Char) : Option Nat :=
  if l ≠ [] ∧ l.all (·.isDigit) then
    some (l.foldl (fun acc c => acc * 10 + (c.toNat - 48)) 0)
  else none

/-- Value of a possibly-empty all-digit character list (`none` if a
non-digit occurs; the empty list has value `0`). -/
def digitsToNatE? (l : List Char) : Option Nat :=
  if l.all (·.isDigit) then
    some (l.foldl (fun acc c => acc * 10 + (c.toNat - 48)) 0)
  else none

/-- Models Python `int(s)` on a stripped string: optional sign followed by
at least one ASCII digit (underscore separators are not modelled). -/
def parseIntLit (s : String) : Option Int :=
  match s.toList with
  | '+' :: rest => (digitsToNat? rest).map (fun n => (n : Int))
  | '-' :: rest => (digitsToNat? rest).map (fun n => -(n : Int))
  | l => (digitsToNat? l).map (fun n => (n : Int))

/-- Split a character list at its first dot. -/
def splitFirstDot : List Char → Option (List Char × List Char)
  | [] => none
  | c :: rest =>
    if c = '.' then some ([], rest)
    else (splitFirstDot rest).map (fun p => (c :: p.1, p.2))

/-- Models Python `float(s)` on a stripped string containing a dot:
optional sign, decimal digits around one dot, at least one digit in total
(exponents, underscores, inf/nan spellings are not modelled: the engine
only reaches this for strings containing a literal dot). The result is the
scaled decimal `(m, e)` denoting `m / 10 ^ e`, the exact value of the
literal. -/
def parseFloatLit (s : String) : Option (Int × Nat) :=
  let signBody : Int × List Char :=
    match s.toList with
    | '+' :: r => (1, r)
    | '-' :: r => (-1, r)
    | l => (1, l)
  match splitFirstDot signBody.2 with
  | none => none
  | some (ip, fp) =>
    if fp.contains '.' then none
    else
      match digitsToNatE? ip, digitsToNatE? fp with
      | some a, some b =>
        if ip = [] ∧ fp = [] then none
        else some (signBody.1 * ((a : Int) * 10 ^ fp.length + (b : Int)), fp.length)
      | _, _ => none

/-- `try_parse_number`: strip; empty stays a string; a string containing a
dot is tried as a float, otherwise as an int; on failure the stripped
string is returned. -/
def try_parse_number (s : String) : Value :=
  let t := strTrim s
  if t = "" then .strV t
  else if t.toList.contains '.' then
    match parseFloatLit t with
    | some p => .floatV p.1 p.2
    | none => .strV t
  else
    match parseIntLit t with
    | some n => .intV n
    | none => .strV t

/-- Numeric reading of a `Value` as a scaled decimal `m / 10 ^ e`
(Python `isinstance(x, (int, float))`). -/
def numOf : Value → Option (Int × Nat)
  | .intV n => some (n, 0)
  | .floatV m e => some (m, e)
  | .strV _ => none

/-- The rational denoted by a scaled decimal. -/
def qVal (a : Int × Nat) : ℚ := (a.1 : ℚ) / (10 : ℚ) ^ a.2

/-- Exact equality of two scaled decimals, by cross multiplication. -/
def decEqB (a b : Int × Nat) : Bool := a.1 * 10 ^ b.2 = b.1 * 10 ^ a.2

/-- Exact strict order of two scaled decimals, by cross multiplication. -/
def decLtB (a b : Int × Nat) : Bool := a.1 * 10 ^ b.2 < b.1 * 10 ^ a.2

/-- Exact weak order of two scaled decimals, by cross multiplication. -/
def decLeB (a b : Int × Nat) : Bool := a.1 * 10 ^ b.2 ≤ b.1 * 10 ^ a.2

/-- Remove trailing decimal zeros of a scaled decimal (`m / 10 ^ e`). -/
def normDec : Int → Nat → Int × Nat
  | m, 0 => (m, 0)
  | m, e + 1 => if m % 10 = 0 then normDec (m / 10) e else (m, e + 1)

/-- Models Python `str` of a float whose value is an exactly-represented
decimal: minimal decimal digits, at least one fractional digit. -/
def renderFloat (m : Int) (e : Nat) : String :=
  let p := normDec m e
  let scaledAbs := p.1.natAbs
  let ip := scaledAbs / 10 ^ p.2
  let fp := scaledAbs % 10 ^ p.2
  let fpStr := natToStr fp
  let fracStr :=
    if p.2 = 0 then "0"
    else String.mk (List.replicate (p.2 - fpStr.toList.length) '0' ++ fpStr.toList)
  (if p.1 < 0 then "-" else "") ++ natToStr ip ++ "." ++ fracStr

/-- Models Python `str` on the values `try_parse_number` can produce. -/
def pyStr : Value → String
  | .intV n => intToStr n
  | .floatV m e => renderFloat m e
  | .strV s => s

/-- Numeric comparison dispatch on the six operators (any other operator
string falls through to the final `return False` of `compare_values`). -/
def opCompareNum (a : Int × Nat) (op : String) (b : Int × Nat) : Bool :=
  if op = "=" then decEqB a b
  else if op = "!=" then !(decEqB a b)
  else if op = "<" then decLtB a b
  else if op = ">" then decLtB b a
  else if op = "<=" then decLeB a b
  else if op = ">=" then decLeB b a
  else false

/-- Lexicographic comparison of character lists by code point, the order
Python uses on strings. -/
def charListLt : List Char → List Char → Bool
  | [], [] => false
  | [], _ :: _ => true
  | _ :: _, [] => false
  | a :: as, b :: bs =>
    if a < b then true else if b < a then false else charListLt as bs

/-- String comparison dispatch on the six operators (lexicographic by code
point, as in Python; `x <= y` is `not (y < x)` in a total order). -/
def opCompareStr (a : String) (op : String) (b : String) : Bool :=
  if op = "=" then decide (a = b)
  else if op = "!=" then decide (a ≠ b)
  else if op = "<" then charListLt a.toList b.toList
  else if op = ">" then charListLt b.toList a.toList
  else if op = "<=" then !(charListLt b.toList a.toList)
  else if op = ">=" then !(charListLt a.toList b.toList)
  else false

/-- `compare_values`: coerce both sides; compare numerically when both
coerce, otherwise compare `str(x).strip().lower()` lexicographically. -/
def compare_values (left_raw : String) (op : String) (right_raw : String) : Bool :=
  match numOf (try_parse_number left_raw), numOf (try_parse_number right_raw) with
  | some a, some b => opCompareNum a op b
  | _, _ =>
    opCompareStr (strLower (strTrim (pyStr (try_parse_number left_raw)))) op
      (strLower (strTrim (pyStr (try_parse_number right_raw))))

-- ------------------------ Parsing ------------------------

/-- True when the character is one of the `shlex` whitespace characters. -/
def shWs (c : Char) : Bool := c = ' ' ∨ c = '\t' ∨ c = '\r' ∨ c = '\n'

/-- True when the character opens a quotation for `shlex`. -/
def shQuote (c : Char) : Bool := c = squoteChar ∨ c = '"'

/-- State machine of `shlex.split` (POSIX mode, whitespace split, no
comments; backslash escapes are not modelled — no query in this
development contains one). `quote` is the pending quote character,
`cur`/`started` the token under construction, `acc` the finished tokens.
An unclosed quotation raises `ValueError`. -/
def shlexRun : List Char → Option Char → List Char → Bool → List String →
    Except QueryError (List String)
  | [], some _, _, _, _ => .error (.valueErr "No closing quotation")
  | [], none, cur, started, acc =>
    .ok (if started then acc ++ [String.mk cur] else acc)
  | c :: rest, some q, cur, _, acc =>
    if c = q then shlexRun rest none cur true acc
    else shlexRun rest (some q) (cur ++ [c]) true acc
  | c :: rest, none, cur, started, acc =>
    if shWs c then
      if started then shlexRun rest none [] false (acc ++ [String.mk cur])
      else shlexRun rest none [] false acc
    else if shQuote c then shlexRun rest (some c) cur true acc
    else shlexRun rest none (cur ++ [c]) true acc

/-- Models `shlex.split(s)` as used on WHERE-clause text. -/
def shlexSplit (s : String) : Except QueryError (List String) :=
  shlexRun s.toList none [] false []

/-- True when the token is a (case-insensitive) AND/OR keyword. -/
def isLogTok (t : String) : Bool := strUpper t = "AND" ∨ strUpper t = "OR"

/-- The `LogOp` stored for an AND/OR token. -/
def toLogOp (t : String) : LogOp := if strUpper t = "AND" then .AND else .OR

/-- True when the token is one of the six comparison operators. -/
def validOp (op : String) : Bool :=
  op = "=" ∨ op = "!=" ∨ op = "<" ∨ op = ">" ∨ op = "<=" ∨ op = ">="

/-- The token scan of `parse_where_clause`: an AND/OR token is emitted
upper-cased and consumes one token; otherwise three tokens must remain and
form `column operator literal` with a valid middle token. -/
def parseWhereTokens : List String → Except QueryError (List CondElem)
  | [] => .ok []
  | t :: rest =>
    if isLogTok t then
      (parseWhereTokens rest).map (fun l => CondElem.logop (toLogOp t) :: l)
    else
      match rest with
      | opTok :: valTok :: rest2 =>
        if validOp opTok then
          (parseWhereTokens rest2).map
            (fun l => CondElem.cond ⟨t, opTok, valTok⟩ :: l)
        else .error (.parseErr "Invalid operator in WHERE.")
      | _ => .error (.parseErr "Malformed WHERE condition.")

/-- `parse_where_clause`: shell-style tokenization then the token scan. -/
def parse_where_clause (where_part : String) : Except QueryError (List CondElem) :=
  match shlexSplit where_part with
  | .error e => .error e
  | .ok toks => parseWhereTokens toks

/-- `parse_select_list`: a lone `*` short-circuits; otherwise split on
commas, trim, and drop empty pieces. -/
def parse_select_list (token : String) : List String :=
  let t := strTrim token
  if t = "*" then ["*"]
  else ((splitComma t).map strTrim).filter (fun p => p ≠ "")

/-- Steps 1 of `parse_query`: strip, drop one trailing semicolon, strip. -/
def stripSemi (sql : String) : String :=
  let original := strTrim sql
  if original.toList.getLast? = some ';' then
    strTrim (String.mk original.toList.dropLast)
  else original

/-- The select-list text of a query: between the first case-insensitive
`select` and the first case-insensitive ` from `, stripped. -/
def selectPartOf (sql : String) : String :=
  let original := stripSemi sql
  let low := strLower original
  strTrim (sliceStr original (((firstOcc? low "select").getD 0) + 6)
    ((firstOcc? low " from ").getD 0))

/-- The text after the first case-insensitive ` from `, stripped. -/
def remainingOf (sql : String) : String :=
  let original := stripSemi sql
  let low := strLower original
  strTrim (strDrop original (((firstOcc? low " from ").getD 0) + 6))

/-- Split the post-FROM text at the first case-insensitive ` where `:
`(table_part, where_part)` when present. -/
def whereSplit (remaining : String) : Option (String × String) :=
  match firstOcc? (strLower remaining) " where " with
  | some wi => some (strTrim (strTake remaining wi), strTrim (strDrop remaining (wi + 7)))
  | none => none

/-- `parse_query`: require the `select` keyword and ` from ` delimiter
(case-insensitively), split out select list, table reference and optional
WHERE clause. -/
def parse_query (sql : String) : Except QueryError ParsedQuery :=
  if substrIn "select" (strLower (stripSemi sql)) ∧ substrIn " from " (strLower (stripSemi sql)) then
    match whereSplit (remainingOf sql) with
    | some (tablePart, wherePart) =>
      match parse_where_clause wherePart with
      | .error e => .error e
      | .ok conds =>
        .ok ⟨parse_select_list (selectPartOf sql), tablePart, some conds, sql⟩
    | none =>
      .ok ⟨parse_select_list (selectPartOf sql), remainingOf sql, none, sql⟩
  else .error (.parseErr "Query must contain SELECT and FROM clauses.")

-- ------------------------ WHERE Evaluation ------------------------

/-- The while-loop of `evaluate_conditions`: `result` is the running value
(Python `None` before the first predicate), `prevOp` the most recently seen
connector (`None` until one is seen; a second predicate before any
connector raises `UnboundLocalError`). A missing column raises `KeyError`. -/
def evalCondsLoop (row : Row) : List CondElem → Option Bool → Option LogOp →
    Except QueryError (Option Bool)
  | [], result, _ => .ok result
  | CondElem.logop o :: rest, result, _ => evalCondsLoop row rest result (some o)
  | CondElem.cond c :: rest, result, prevOp =>
    match row.lookup (normalize_colname c.col) with
    | none => .error (.keyErr (normalize_colname c.col))
    | some lv =>
      let res := compare_values lv c.op (unquote_value c.raw_val)
      match result with
      | none => evalCondsLoop row rest (some res) prevOp
      | some r =>
        match prevOp with
        | none => .error .nameErr
        | some LogOp.AND => evalCondsLoop row rest (some (r && res)) prevOp
        | some LogOp.OR => evalCondsLoop row rest (some (r || res)) prevOp

/-- `evaluate_conditions`: `None` or an empty list matches unconditionally
(Python `True`), otherwise run the left-to-right fold. -/
def evaluate_conditions (row : Row) (conds : Option (List CondElem)) :
    Except QueryError (Option Bool) :=
  match conds with
  | none => .ok (some true)
  | some [] => .ok (some true)
  | some (e :: rest) => evalCondsLoop row (e :: rest) none none

-- ------------------------ Execution ------------------------

/-- The filtering comprehension of `execute_query`: keep rows whose
evaluation is truthy (`True`; `False` and `None` are falsy), propagating
the first raised exception. -/
def filterRows (conds : Option (List CondElem)) : List Row → Except QueryError (List Row)
  | [] => .ok []
  | r :: rs =>
    match evaluate_conditions r conds with
    | .error e => .error e
    | .ok v =>
      match filterRows conds rs with
      | .error e => .error e
      | .ok rest => .ok (if v = some true then r :: rest else rest)

/-- `s.lower().startswith('count(')`. -/
def startsWithCount (s : String) : Bool :=
  leadsWith "count(".toList (strLower s).toList

/-- Python `s[s.find('(')+1 : s.find(')')].strip()` — the text between the
first parentheses; `find` returning `-1` makes the start `0` and the stop
`len - 1`, exactly as in Python slicing. -/
def pyInner (s : String) : String :=
  let l := s.toList
  let a := match l.findIdx? (· = '(') with
    | some i => i + 1
    | none => 0
  let b := match l.findIdx? (· = ')') with
    | some j => j
    | none => l.length - 1
  strTrim (String.mk ((l.drop a).take (b - a)))

/-- One entry of the COUNT aggregate loop: `COUNT(*)` counts the filtered
rows; any other inner text counts filtered rows whose normalized column
holds a non-empty trimmed value (`row.get(..., '')`). -/
def countEntry (filtered : List Row) (s : String) : String × Nat :=
  let inner := pyInner s
  if inner = "*" then ("COUNT(*)", filtered.length)
  else ("COUNT(" ++ inner ++ ")",
    (filtered.filter
      (fun r => decide (strTrim ((r.lookup (normalize_colname inner)).getD "") ≠ ""))).length)

/-- Project one row onto the select list: original-cased requested name as
output key, value read by normalized name; a missing column raises
`KeyError` at the first offender. -/
def projectRow (sel : List String) (r : Row) : Except QueryError Row :=
  match sel with
  | [] => .ok []
  | col :: rest =>
    match r.lookup (normalize_colname col) with
    | none => .error (.keyErr col)
    | some v => (projectRow rest r).map (fun out => (col, v) :: out)

/-- The projection loop over the filtered rows. -/
def projectRows (sel : List String) : List Row → Except QueryError (List Row)
  | [] => .ok []
  | r :: rs =>
    match projectRow sel r with
    | .error e => .error e
    | .ok out => (projectRows sel rs).map (fun rest => out :: rest)

/-- `execute_query`, parameterised by the externally loaded rows (the
column list returned by the loader is unused by the Python function):
filter, then `*` / COUNT-aggregate / plain projection. -/
def execute_query (rows : List Row) (parsed : ParsedQuery) :
    Except QueryError QueryResult :=
  match filterRows parsed.whereConds rows with
  | .error e => .error e
  | .ok filtered =>
    if parsed.select = ["*"] then .ok (.rowsRes filtered)
    else if parsed.select.any startsWithCount then
      .ok (.aggRes (parsed.select.map (countEntry filtered)))
    else
      match projectRows parsed.select filtered with
      | .error e => .error e
      | .ok projected => .ok (.rowsRes projected)

-- ------------------------ Spec-side predicates ------------------------

/-- True when a condition-list element is a logical-operator token. -/
def isOpElem : CondElem → Bool
  | .logop _ => true
  | .cond _ => false

/-- Well-formedness of one condition-list element: a predicate must carry
one of the six comparison operators; a connector is always well formed. -/
def elemWellFormed : CondElem → Bool
  | .cond c => validOp c.op
  | .logop _ => true

/-- The shape asserted by the spec for condition lists: a nonempty
alternation `[Condition, LogicalOperator, Condition, ...]` beginning and
ending with a Condition. -/
def alternating : List CondElem → Bool
  | [CondElem.cond _] => true
  | CondElem.cond _ :: CondElem.logop _ :: rest => alternating rest
  | _ => false

/-- The spec's characterisation of a malformed WHERE token sequence:
scanning left to right and skipping AND/OR keywords, a condition group
with fewer than three tokens remaining, or a middle token that is not one
of the six comparison operators. -/
def whereMalformed : List String → Bool
  | [] => false
  | t :: rest =>
    if isLogTok t then whereMalformed rest
    else
      match rest with
      | opTok :: _ :: rest2 => if validOp opTok then whereMalformed rest2 else true
      | _ => true

-- ------------------------ Helper lemmas ------------------------

/-- Filtering with an absent condition list keeps every row. -/
lemma filterRows_none (rows : List Row) : filterRows none rows = .ok rows := by
  induction rows with
  | nil => rfl
  | cons r rs ih => simp [filterRows, evaluate_conditions, ih]

/-- The evaluation loop ignores connector tokens: on a list of connectors
only, the running result is returned unchanged. -/
lemma evalCondsLoop_ops (row : Row) :
    ∀ (l : List CondElem) (res : Option Bool) (p : Option LogOp),
      (∀ e ∈ l, isOpElem e = true) →
      evalCondsLoop row l res p = .ok res := by
  intro l
  induction l with
  | nil => intro res p _; rfl
  | cons e rest ih =>
    intro res p hall
    cases e with
    | cond c => exact absurd (hall _ (List.mem_cons_self _ _)) (by simp [isOpElem])
    | logop o =>
      simpa [evalCondsLoop] using
        ih res (some o) (fun x hx => hall x (List.mem_cons_of_mem _ hx))

/-- Rows kept by the filter came from the input and evaluated truthy. -/
lemma filterRows_mem {conds : Option (List CondElem)} :
    ∀ {rows l : List Row}, filterRows conds rows = .ok l →
      ∀ r ∈ l, r ∈ rows ∧ evaluate_conditions r conds = .ok (some true) := by
  intro rows
  induction rows with
  | nil =>
    intro l h r hr
    simp only [filterRows] at h
    cases h
    simp at hr
  | cons r0 rs ih =>
    intro l h r hr
    simp only [filterRows] at h
    cases hev : evaluate_conditions r0 conds with
    | error e => rw [hev] at h; cases h
    | ok v =>
      rw [hev] at h
      cases hrest : filterRows conds rs with
      | error e => rw [hrest] at h; cases h
      | ok rest =>
        rw [hrest] at h
        cases h
        by_cases hv : v = some true
        · rw [if_pos hv] at hr
          rcases List.mem_cons.mp hr with hEq | hMem
          · subst hEq; exact ⟨List.mem_cons_self _ _, by rw [hev, hv]⟩
          · rcases ih hrest r hMem with ⟨h1, h2⟩
            exact ⟨List.mem_cons_of_mem _ h1, h2⟩
        · rw [if_neg hv] at hr
          rcases ih hrest r hr with ⟨h1, h2⟩
          exact ⟨List.mem_cons_of_mem _ h1, h2⟩

/-- Rows that all evaluate truthy all pass the filter. -/
lemma filterRows_all_true {conds : Option (List CondElem)} :
    ∀ {rows : List Row},
      (∀ r ∈ rows, evaluate_conditions r conds = .ok (some true)) →
      filterRows conds rows = .ok rows := by
  intro rows
  induction rows with
  | nil => intro _; rfl
  | cons r rs ih =>
    intro hall
    have h0 := hall r (List.mem_cons_self _ _)
    have hrest := ih (fun x hx => hall x (List.mem_cons_of_mem _ hx))
    simp [filterRows, h0, hrest]

/-- Rows that all evaluate to the non-boolean `None` are all dropped. -/
lemma filterRows_all_none {conds : Option (List CondElem)} :
    ∀ {rows : List Row},
      (∀ r ∈ rows, evaluate_conditions r conds = .ok none) →
      filterRows conds rows = .ok [] := by
  intro rows
  induction rows with
  | nil => intro _; rfl
  | cons r rs ih =>
    intro hall
    have h0 := hall r (List.mem_cons_self _ _)
    have hrest := ih (fun x hx => hall x (List.mem_cons_of_mem _ hx))
    simp [filterRows, h0, hrest]

/-- Every entry produced by `parse_select_list` is a nonempty string. -/
lemma parse_select_list_entries (tok : String) :
    ∀ s ∈ parse_select_list tok, s ≠ "" := by
  intro s hs
  simp only [parse_select_list] at hs
  split at hs
  · rcases List.mem_singleton.mp hs with rfl
    decide
  · rcases List.mem_filter.mp hs with ⟨_, h2⟩
    simpa using h2

/-- An accepted query's select list is `parse_select_list` of the
select-list text. -/
lemma parse_query_select {sql : String} {q : ParsedQuery} :
    parse_query sql = .ok q → q.select = parse_select_list (selectPartOf sql) := by
  intro h
  rw [parse_query.eq_def] at h
  by_cases hc : substrIn "select" (strLower (stripSemi sql)) = true ∧
      substrIn " from " (strLower (stripSemi sql)) = true
  · rw [if_pos hc] at h
    cases hw : whereSplit (remainingOf sql) with
    | none =>
      rw [hw] at h
      injection h with h2
      rw [← h2]
    | some p =>
      obtain ⟨tp, wp⟩ := p
      rw [hw] at h
      simp only at h
      cases hp : parse_where_clause wp with
      | error e => rw [hp] at h; exact absurd h (by simp)
      | ok conds =>
        rw [hp] at h
        injection h with h2
        rw [← h2]
  · rw [if_neg hc] at h
    exact absurd h (by simp)

/-- Every element of a successfully parsed token list is a predicate with
a valid operator or a connector. -/
lemma parseWhereTokens_mem :
    ∀ {toks : List String} {l : List CondElem}, parseWhereTokens toks = .ok l →
      ∀ e ∈ l, elemWellFormed e = true := by
  intro toks
  induction toks using parseWhereTokens.induct with
  | case1 =>
    intro l h e he
    cases h
    simp at he
  | case2 t rest hlog ih =>
    intro l h e he
    rw [parseWhereTokens.eq_def] at h
    simp only [hlog, if_true] at h
    cases hrec : parseWhereTokens rest with
    | error er => rw [hrec] at h; cases h
    | ok l2 =>
      rw [hrec] at h
      cases h
      rcases List.mem_cons.mp he with rfl | hm
      · rfl
      · exact ih hrec e hm
  | case3 t hlog opTok valTok rest2 hop ih =>
    intro l h e he
    rw [parseWhereTokens.eq_def] at h
    simp only [hlog, hop, if_true, if_false, ite_true, ite_false,
      Bool.false_eq_true] at h
    cases hrec : parseWhereTokens rest2 with
    | error er => rw [hrec] at h; cases h
    | ok l2 =>
      rw [hrec] at h
      cases h
      rcases List.mem_cons.mp he with rfl | hm
      · simpa [elemWellFormed] using hop
      · exact ih hrec e hm
  | case4 t hlog opTok valTok rest2 hop =>
    intro l h e he
    rw [parseWhereTokens.eq_def] at h
    simp only [hlog, hop, if_true, if_false, ite_true, ite_false,
      Bool.false_eq_true] at h
    cases h
  | case5 t rest hlog hshape =>
    intro l h e he
    rw [parseWhereTokens.eq_def] at h
    simp only [hlog, if_false, ite_false, Bool.false_eq_true] at h
    cases rest with
    | nil => cases h
    | cons a as =>
      cases as with
      | nil => cases h
      | cons b bs => exact absurd rfl (by intro hh; exact hshape a b bs hh)

/-- The token scan raises `ParseError` exactly on the token sequences the
spec calls malformed, and raises nothing else. -/
lemma parseWhereTokens_err_iff :
    ∀ toks : List String,
      (∃ m, parseWhereTokens toks = .error (.parseErr m)) ↔ whereMalformed toks = true := by
  intro toks
  induction toks using parseWhereTokens.induct with
  | case1 =>
    constructor
    · rintro ⟨m, h⟩; cases h
    · intro h; cases h
  | case2 t rest hlog ih =>
    rw [parseWhereTokens.eq_def, whereMalformed.eq_def]
    simp only [hlog, if_true]
    cases hrec : parseWhereTokens rest with
    | error er =>
      simp only [Except.map]
      constructor
      · rintro ⟨m, hm⟩
        exact ih.mp ⟨m, by rw [hrec]; exact congrArg (Except.error) (by injection hm)⟩
      · intro h
        rcases ih.mpr h with ⟨m, hm⟩
        rw [hrec] at hm
        exact ⟨m, by injection hm with hh; rw [hh]⟩
    | ok l2 =>
      simp only [Except.map]
      constructor
      · rintro ⟨m, hm⟩; cases hm
      · intro h
        rcases ih.mpr h with ⟨m, hm⟩
        rw [hrec] at hm
        cases hm
  | case3 t hlog opTok valTok rest2 hop ih =>
    rw [parseWhereTokens.eq_def, whereMalformed.eq_def]
    simp only [hlog, hop, if_true, if_false, ite_true, ite_false,
      Bool.false_eq_true]
    cases hrec : parseWhereTokens rest2 with
    | error er =>
      simp only [Except.map]
      constructor
      · rintro ⟨m, hm⟩
        exact ih.mp ⟨m, by rw [hrec]; exact congrArg (Except.error) (by injection hm)⟩
      · intro h
        rcases ih.mpr h with ⟨m, hm⟩
        rw [hrec] at hm
        exact ⟨m, by injection hm with hh; rw [hh]⟩
    | ok l2 =>
      simp only [Except.map]
      constructor
      · rintro ⟨m, hm⟩; cases hm
      · intro h
        rcases ih.mpr h with ⟨m, hm⟩
        rw [hrec] at hm
        cases hm
  | case4 t hlog opTok valTok rest2 hop =>
    rw [parseWhereTokens.eq_def, whereMalformed.eq_def]
    simp only [hlog, hop, if_true, if_false, ite_true, ite_false,
      Bool.false_eq_true]
    exact ⟨fun _ => True.intro, fun _ => ⟨"Invalid operator in WHERE.", rfl⟩⟩
  | case5 t rest hlog hshape =>
    rw [parseWhereTokens.eq_def, whereMalformed.eq_def]
    simp only [hlog, if_false, ite_false, Bool.false_eq_true]
    cases rest with
    | nil => exact ⟨fun _ => True.intro, fun _ => ⟨"Malformed WHERE condition.", rfl⟩⟩
    | cons a as =>
      cases as with
      | nil => exact ⟨fun _ => True.intro, fun _ => ⟨"Malformed WHERE condition.", rfl⟩⟩
      | cons b bs => exact absurd rfl (fun hh => hshape a b bs hh)

/-- The tokenizer only raises `ValueError` (unclosed quotation). -/
lemma shlexRun_err :
    ∀ (cs : List Char) (q : Option Char) (cur : List Char) (st : Bool)
      (acc : List String) (e : QueryError),
      shlexRun cs q cur st acc = .error e → ∃ m, e = .valueErr m := by
  intro cs
  induction cs with
  | nil =>
    intro q cur st acc e h
    cases q with
    | some c => cases h; exact ⟨"No closing quotation", rfl⟩
    | none => cases h
  | cons c rest ih =>
    intro q cur st acc e h
    cases q with
    | some qc =>
      rw [shlexRun.eq_def] at h
      by_cases hc : c = qc
      · simp only [hc, if_true, ite_true] at h
        exact ih _ _ _ _ _ h
      · simp only [hc, if_false, ite_false] at h
        exact ih _ _ _ _ _ h
    | none =>
      rw [shlexRun.eq_def] at h
      by_cases hws : shWs c = true
      · simp only [hws, if_true, ite_true] at h
        by_cases hst : st = true
        · simp only [hst, if_true, ite_true] at h
          exact ih _ _ _ _ _ h
        · simp only [Bool.not_eq_true] at hst
          simp only [hst, if_false, ite_false, Bool.false_eq_true] at h
          exact ih _ _ _ _ _ h
      · simp only [Bool.not_eq_true] at hws
        simp only [hws, if_false, ite_false, Bool.false_eq_true] at h
        by_cases hq : shQuote c = true
        · simp only [hq, if_true, ite_true] at h
          exact ih _ _ _ _ _ h
        · simp only [Bool.not_eq_true] at hq
          simp only [hq, if_false, ite_false, Bool.false_eq_true] at h
          exact ih _ _ _ _ _ h

/-- `shlex.split` only raises `ValueError`. -/
lemma shlexSplit_err {s : String} {e : QueryError} :
    shlexSplit s = .error e → ∃ m, e = .valueErr m :=
  fun h => shlexRun_err _ _ _ _ _ _ h

/-- Projection of a row missing one of the requested (normalized) columns
raises a `KeyError`. -/
lemma projectRow_err :
    ∀ (sel : List String) (r : Row),
      (∃ s ∈ sel, r.lookup (normalize_colname s) = none) →
      ∃ c, projectRow sel r = .error (.keyErr c) := by
  intro sel
  induction sel with
  | nil =>
    intro r h
    rcases h with ⟨s, hs, _⟩
    simp at hs
  | cons col rest ih =>
    intro r h
    cases hl : r.lookup (normalize_colname col) with
    | none => exact ⟨col, by simp [projectRow, hl]⟩
    | some v =>
      rcases h with ⟨s, hs, hnone⟩
      rcases List.mem_cons.mp hs with rfl | hmem
      · rw [hl] at hnone; cases hnone
      · rcases ih r ⟨s, hmem, hnone⟩ with ⟨c, hc⟩
        exact ⟨c, by simp [projectRow, hl, hc, Except.map]⟩

-- ------------------------ Claim theorems ------------------------

/-- C8: every well-formed `SELECT * FROM t` query with no WHERE clause
returns every row of the table unchanged and in source order, and
condition evaluation with an absent (`None`) or empty condition list
returns true for every row. -/
theorem c8_select_star_no_where :
    (∀ (rows : List Row) (t raw : String),
      execute_query rows ⟨["*"], t, none, raw⟩ = .ok (.rowsRes rows)) ∧
    (∀ row : Row,
      evaluate_conditions row none = .ok (some true) ∧
      evaluate_conditions row (some []) = .ok (some true)) := by
  constructor
  · intro rows t raw
    have hf : filterRows none rows = .ok rows := filterRows_none rows
    simp [execute_query, hf]
  · intro row
    exact ⟨rfl, rfl⟩

/-- C9: filtering by a single equality condition `{col, '=', v}` is
idempotent: re-executing `SELECT *` with the same condition on the
already-filtered rows returns them unchanged. -/
theorem c9_equality_filter_idempotent :
    ∀ (col v : String) (rows l : List Row) (t raw : String),
      execute_query rows ⟨["*"], t, some [CondElem.cond ⟨col, "=", v⟩], raw⟩ =
        .ok (.rowsRes l) →
      execute_query l ⟨["*"], t, some [CondElem.cond ⟨col, "=", v⟩], raw⟩ =
        .ok (.rowsRes l) := by
  intro col v rows l t raw h
  cases hf : filterRows (some [CondElem.cond ⟨col, "=", v⟩]) rows with
  | error e => simp [execute_query, hf] at h
  | ok f =>
    simp [execute_query, hf] at h
    subst h
    have hall : ∀ r ∈ f, evaluate_conditions r (some [CondElem.cond ⟨col, "=", v⟩]) =
        .ok (some true) := fun r hr => (filterRows_mem hf r hr).2
    have hf2 : filterRows (some [CondElem.cond ⟨col, "=", v⟩]) f = .ok f :=
      filterRows_all_true hall
    simp [execute_query, hf2]

/-- C9 witness: a two-row table filtered by `a = 1`, then re-filtered. -/
theorem c9_equality_filter_idempotent_witness :
    execute_query [[("a", "1")]]
      ⟨["*"], "t", some [CondElem.cond ⟨"a", "=", "1"⟩], "q"⟩ =
      .ok (.rowsRes [[("a", "1")]]) :=
  c9_equality_filter_idempotent "a" "1" [[("a", "1")], [("a", "2")]]
    [[("a", "1")]] "t" "q" (by decide)

/-- C10: a nonempty condition list holding only logical-operator tokens
(as the parser produces from `WHERE AND`) makes `evaluate_conditions`
return the non-boolean `None`; the filter then drops every row, yielding
an empty result without an error. -/
theorem c10_operator_only_conditions :
    ∀ (row : Row) (rows : List Row) (l : List CondElem),
      l ≠ [] → (∀ e ∈ l, isOpElem e = true) →
      evaluate_conditions row (some l) = .ok none ∧
      filterRows (some l) rows = .ok [] ∧
      parse_where_clause "AND" = .ok [CondElem.logop LogOp.AND] := by
  intro row rows l hne hall
  have hev : ∀ r : Row, evaluate_conditions r (some l) = .ok none := by
    intro r
    cases l with
    | nil => exact absurd rfl hne
    | cons e rest =>
      show evalCondsLoop r (e :: rest) none none = .ok none
      exact evalCondsLoop_ops r (e :: rest) none none hall
  exact ⟨hev row, filterRows_all_none (fun r _ => hev r), by decide⟩

/-- C10 witness: the operator-only list `[AND]` at a concrete row and a
one-row table. -/
theorem c10_operator_only_conditions_witness :
    evaluate_conditions [] (some [CondElem.logop LogOp.AND]) = .ok none ∧
    filterRows (some [CondElem.logop LogOp.AND]) [[("a", "1")]] = .ok [] ∧
    parse_where_clause "AND" = .ok [CondElem.logop LogOp.AND] :=
  c10_operator_only_conditions [] [[("a", "1")]] [CondElem.logop LogOp.AND]
    (by decide) (by decide)

/-- Cross-multiplied strict order of scaled decimals agrees with the
rational order (Python compares numbers by real value). -/
lemma decLtB_iff (a b : Int × Nat) : decLtB a b = true ↔ qVal a < qVal b := by
  have h10a : (0 : ℚ) < (10 : ℚ) ^ a.2 := by positivity
  have h10b : (0 : ℚ) < (10 : ℚ) ^ b.2 := by positivity
  simp only [decLtB, decide_eq_true_eq, qVal]
  rw [div_lt_div_iff₀ h10a h10b]
  constructor
  · intro h; exact_mod_cast h
  · intro h; exact_mod_cast h

/-- Cross-multiplied weak order of scaled decimals agrees with the
rational order. -/
lemma decLeB_iff (a b : Int × Nat) : decLeB a b = true ↔ qVal a ≤ qVal b := by
  have h10a : (0 : ℚ) < (10 : ℚ) ^ a.2 := by positivity
  have h10b : (0 : ℚ) < (10 : ℚ) ^ b.2 := by positivity
  simp only [decLeB, decide_eq_true_eq, qVal]
  rw [div_le_div_iff₀ h10a h10b]
  constructor
  · intro h; exact_mod_cast h
  · intro h; exact_mod_cast h

/-- Cross-multiplied equality of scaled decimals agrees with rational
equality. -/
lemma decEqB_iff (a b : Int × Nat) : decEqB a b = true ↔ qVal a = qVal b := by
  have h10a : (10 : ℚ) ^ a.2 ≠ 0 := by positivity
  have h10b : (10 : ℚ) ^ b.2 ≠ 0 := by positivity
  simp only [decEqB, decide_eq_true_eq, qVal]
  rw [div_eq_div_iff h10a h10b]
  constructor
  · intro h; exact_mod_cast h
  · intro h; exact_mod_cast h

/-- C2: condition evaluation is a strict left fold with no operator
precedence: for every row holding column `a`, the list parsed from
`a = 1 OR a = 2 AND a = 3` evaluates as `((a=1) OR (a=2)) AND (a=3)`;
at the row `a = "1"` this left fold yields false, whereas the
right-associated `(a=1) OR ((a=2) AND (a=3))` would yield true. -/
theorem c2_left_fold_no_precedence :
    ∀ (row : Row) (v : String), row.lookup "a" = some v →
      parse_where_clause "a = 1 OR a = 2 AND a = 3" = .ok
        [CondElem.cond ⟨"a", "=", "1"⟩, CondElem.logop LogOp.OR,
         CondElem.cond ⟨"a", "=", "2"⟩, CondElem.logop LogOp.AND,
         CondElem.cond ⟨"a", "=", "3"⟩] ∧
      evaluate_conditions row (some
        [CondElem.cond ⟨"a", "=", "1"⟩, CondElem.logop LogOp.OR,
         CondElem.cond ⟨"a", "=", "2"⟩, CondElem.logop LogOp.AND,
         CondElem.cond ⟨"a", "=", "3"⟩]) =
        .ok (some ((compare_values v "=" "1" || compare_values v "=" "2") &&
          compare_values v "=" "3")) ∧
      evaluate_conditions [("a", "1")] (some
        [CondElem.cond ⟨"a", "=", "1"⟩, CondElem.logop LogOp.OR,
         CondElem.cond ⟨"a", "=", "2"⟩, CondElem.logop LogOp.AND,
         CondElem.cond ⟨"a", "=", "3"⟩]) = .ok (some false) ∧
      (compare_values "1" "=" "1" || (compare_values "1" "=" "2" &&
        compare_values "1" "=" "3")) = true := by
  intro row v h
  have h2 : List.lookup (normalize_colname "a") row = some v := h
  refine ⟨by decide, ?_, by decide, by decide⟩
  have hu : unquote_value "1" = "1" ∧ unquote_value "2" = "2" ∧
      unquote_value "3" = "3" := by decide
  simp only [evaluate_conditions, evalCondsLoop, h2, hu.1, hu.2.1, hu.2.2]

/-- C2 witness: the fold at the concrete row `a = "5"`. -/
theorem c2_left_fold_no_precedence_witness :
    evaluate_conditions [("a", "5")] (some
      [CondElem.cond ⟨"a", "=", "1"⟩, CondElem.logop LogOp.OR,
       CondElem.cond ⟨"a", "=", "2"⟩, CondElem.logop LogOp.AND,
       CondElem.cond ⟨"a", "=", "3"⟩]) =
      .ok (some ((compare_values "5" "=" "1" || compare_values "5" "=" "2") &&
        compare_values "5" "=" "3")) :=
  (c2_left_fold_no_precedence [("a", "5")] "5" rfl).2.1

/-- C6: when both the row value and the literal coerce to numbers, the
comparison is numeric (exact value comparison, agreeing with rational
order by `decLtB_iff` and friends), so `"10" > "9"` holds; when either
side fails numeric coercion, comparison falls back to the case-folded
trimmed string order, under which `"10" < "9a"` lexicographically. -/
theorem c6_numeric_then_string_fallback :
    (∀ (l r op : String) (a b : Int × Nat),
      numOf (try_parse_number l) = some a → numOf (try_parse_number r) = some b →
      compare_values l op r = opCompareNum a op b) ∧
    (∀ a b : Int × Nat,
      (decLtB a b = true ↔ qVal a < qVal b) ∧
      (decLeB a b = true ↔ qVal a ≤ qVal b) ∧
      (decEqB a b = true ↔ qVal a = qVal b)) ∧
    (∀ (l r op : String),
      numOf (try_parse_number l) = none ∨ numOf (try_parse_number r) = none →
      compare_values l op r =
        opCompareStr (strLower (strTrim (pyStr (try_parse_number l)))) op
          (strLower (strTrim (pyStr (try_parse_number r))))) ∧
    compare_values "10" ">" "9" = true ∧
    numOf (try_parse_number "9a") = none ∧
    compare_values "10" ">" "9a" = false ∧
    compare_values "10" "<" "9a" = true := by
  refine ⟨?_, fun a b => ⟨decLtB_iff a b, decLeB_iff a b, decEqB_iff a b⟩,
    ?_, by decide, by decide, by decide, by decide⟩
  · intro l r op a b h1 h2
    rw [compare_values.eq_def, h1, h2]
  · intro l r op h
    rcases h with h | h
    · cases h2 : numOf (try_parse_number r) with
      | none => rw [compare_values.eq_def, h, h2]
      | some b => rw [compare_values.eq_def, h, h2]
    · cases h1 : numOf (try_parse_number l) with
      | none => rw [compare_values.eq_def, h, h1]
      | some a => rw [compare_values.eq_def, h, h1]

/-- C6 witness: the numeric branch at `("10", "9")` and the string
fallback at `("10", "9a")`. -/
theorem c6_numeric_then_string_fallback_witness :
    compare_values "10" ">" "9" = opCompareNum (10, 0) ">" (9, 0) ∧
    compare_values "10" "<" "9a" = opCompareStr "10" "<" "9a" := by
  constructor
  · exact c6_numeric_then_string_fallback.1 "10" "9" ">" (10, 0) (9, 0)
      (by decide) (by decide)
  · have h := c6_numeric_then_string_fallback.2.2.1 "10" "9a" "<"
      (Or.inr (by decide))
    rw [h]
    decide

/-- C1 counterexample: for the select list `[COUNT(*), name]` over a
one-row table, the engine emits TWO aggregate pairs — the plain column
`name` is not ignored but produces a degenerate `COUNT(nam)` entry (the
slice between a missing `(` and a missing `)` is the column text without
its last character) — so the result differs from the single pair per
COUNT expression that the claim asserts. -/
theorem c1_mixed_count_counterexample :
    execute_query [[("name", "Bob")]] ⟨["COUNT(*)", "name"], "t", none, "q"⟩ =
      .ok (.aggRes [("COUNT(*)", 1), ("COUNT(nam)", 0)]) ∧
    [("COUNT(*)", (1 : Nat)), ("COUNT(nam)", 0)] ≠ [("COUNT(*)", (1 : Nat))] := by
  constructor
  · decide
  · decide

/-- C1 amended: in COUNT mode (some select entry starts with `count(`),
execution succeeds with one `(label, count)` pair per select-list entry —
plain columns included, each processed by the uniform
parenthesis-extraction rule — never one pair per COUNT expression only. -/
theorem c1_count_mode_one_pair_per_entry :
    ∀ (rows : List Row) (parsed : ParsedQuery) (filtered : List Row),
      parsed.select.any startsWithCount = true →
      filterRows parsed.whereConds rows = .ok filtered →
      execute_query rows parsed =
        .ok (.aggRes (parsed.select.map (countEntry filtered))) ∧
      (parsed.select.map (countEntry filtered)).length = parsed.select.length := by
  intro rows parsed filtered hcount hfil
  have hne : parsed.select ≠ ["*"] := by
    intro hEq
    rw [hEq] at hcount
    exact absurd hcount (by decide)
  refine ⟨?_, List.length_map _ _⟩
  rw [execute_query.eq_def, hfil]
  simp only [if_neg hne, hcount, if_true]

/-- C1 witness: the amended behaviour at the counterexample input. -/
theorem c1_count_mode_one_pair_per_entry_witness :
    execute_query [[("name", "Bob")]] ⟨["COUNT(*)", "name"], "t", none, "q"⟩ =
      .ok (.aggRes (["COUNT(*)", "name"].map (countEntry [[("name", "Bob")]]))) :=
  (c1_count_mode_one_pair_per_entry [[("name", "Bob")]]
    ⟨["COUNT(*)", "name"], "t", none, "q"⟩ [[("name", "Bob")]]
    (by decide) (by decide)).1

/-- C3 counterexample: `SELECT FROM t` is accepted with an EMPTY select
list, and `SELECT *, name FROM t` is accepted with `*` mixed among named
columns — refuting both halves of the claimed invariant. -/
theorem c3_select_list_counterexample :
    parse_query "SELECT FROM t" = .ok ⟨[], "t", none, "SELECT FROM t"⟩ ∧
    parse_query "SELECT *, name FROM t" =
      .ok ⟨["*", "name"], "t", none, "SELECT *, name FROM t"⟩ ∧
    ("*" ∈ (["*", "name"] : List String) ∧ (["*", "name"] : List String) ≠ ["*"]) := by
  refine ⟨by decide, by decide, by decide, by decide⟩

/-- C3 amended: for every accepted query, every select-list entry is a
nonempty string, and the list is exactly `["*"]` whenever the select text
itself trims to `*`; but the list may be empty, and `*` may appear mixed
with named columns. -/
theorem c3_select_list_entries_nonempty :
    ∀ (sql : String) (q : ParsedQuery), parse_query sql = .ok q →
      (∀ s ∈ q.select, s ≠ "") ∧
      (selectPartOf sql = "*" → q.select = ["*"]) := by
  intro sql q h
  have hsel := parse_query_select h
  constructor
  · rw [hsel]
    exact parse_select_list_entries _
  · intro hstar
    rw [hsel, hstar]
    decide

/-- C3 witness: the amended invariant at `SELECT a FROM t`. -/
theorem c3_select_list_entries_nonempty_witness :
    parse_query "SELECT a FROM t" = .ok ⟨["a"], "t", none, "SELECT a FROM t"⟩ ∧
    ("a" : String) ≠ "" :=
  ⟨by decide,
    (c3_select_list_entries_nonempty "SELECT a FROM t"
      ⟨["a"], "t", none, "SELECT a FROM t"⟩ (by decide)).1 "a" (by decide)⟩

/-- C4 counterexample: the WHERE clause `a = 1 AND` parses successfully
to a condition list that ENDS with a logical operator, so parsed
condition lists are not always alternating sequences that begin and end
with a Condition. -/
theorem c4_alternation_counterexample :
    parse_where_clause "a = 1 AND" =
      .ok [CondElem.cond ⟨"a", "=", "1"⟩, CondElem.logop LogOp.AND] ∧
    alternating [CondElem.cond ⟨"a", "=", "1"⟩, CondElem.logop LogOp.AND] = false := by
  exact ⟨by decide, by decide⟩

/-- C4 amended: every condition list returned by the WHERE-clause parser
is a flat sequence whose elements are each either a Condition carrying one
of the six comparison operators or an AND/OR LogicalOperator; the strict
begin/end-with-Condition alternation is NOT guaranteed. -/
theorem c4_condition_lists_flat_well_formed :
    ∀ (w : String) (l : List CondElem), parse_where_clause w = .ok l →
      ∀ e ∈ l, elemWellFormed e = true := by
  intro w l h
  unfold parse_where_clause at h
  cases hs : shlexSplit w with
  | error e => rw [hs] at h; cases h
  | ok toks =>
    rw [hs] at h
    exact parseWhereTokens_mem h

/-- C4 witness: well-formedness of the elements parsed from `a = 1 AND`. -/
theorem c4_condition_lists_flat_well_formed_witness :
    elemWellFormed (CondElem.cond ⟨"a", "=", "1"⟩) = true ∧
    elemWellFormed (CondElem.logop LogOp.AND) = true :=
  ⟨c4_condition_lists_flat_well_formed "a = 1 AND"
      [CondElem.cond ⟨"a", "=", "1"⟩, CondElem.logop LogOp.AND] (by decide)
      (CondElem.cond ⟨"a", "=", "1"⟩) (by simp),
    c4_condition_lists_flat_well_formed "a = 1 AND"
      [CondElem.cond ⟨"a", "=", "1"⟩, CondElem.logop LogOp.AND] (by decide)
      (CondElem.logop LogOp.AND) (by simp)⟩

/-- C5 counterexample: selecting the unknown column `nosuch` succeeds with
an empty result when no row passes the filter — execution does NOT fail
with a column-not-found error regardless of how many rows pass. -/
theorem c5_unknown_column_counterexample :
    ("nosuch" ∉ (["id"] : List String)) ∧
    execute_query [[("id", "1")]]
      ⟨["nosuch"], "t", some [CondElem.cond ⟨"id", "=", "2"⟩], "q"⟩ =
      .ok (.rowsRes []) := by
  exact ⟨by decide, by decide⟩

/-- C5 amended: in plain column-projection mode, requesting a column
absent from the table's column set fails with a column-not-found
`KeyError` PROVIDED at least one row passes the filter; when no row
passes, execution succeeds with an empty result and no error. -/
theorem c5_unknown_column_needs_surviving_row :
    (∀ (rows : List Row) (parsed : ParsedQuery) (columns : List String)
        (f0 : Row) (fs : List Row),
      parsed.select ≠ ["*"] →
      parsed.select.any startsWithCount = false →
      (∀ r ∈ rows, ∀ c : String, (r.lookup c).isSome = true ↔ c ∈ columns) →
      (∃ s ∈ parsed.select, normalize_colname s ∉ columns) →
      filterRows parsed.whereConds rows = .ok (f0 :: fs) →
      ∃ c, execute_query rows parsed = .error (.keyErr c)) ∧
    (∀ (rows : List Row) (parsed : ParsedQuery),
      parsed.select ≠ ["*"] →
      parsed.select.any startsWithCount = false →
      filterRows parsed.whereConds rows = .ok [] →
      execute_query rows parsed = .ok (.rowsRes [])) := by
  constructor
  · intro rows parsed columns f0 fs hstar hcount hkeys hmiss hfil
    obtain ⟨s, hsmem, hsnotin⟩ := hmiss
    have hf0mem : f0 ∈ rows := (filterRows_mem hfil f0 (List.mem_cons_self _ _)).1
    have hlook : f0.lookup (normalize_colname s) = none := by
      cases hl : f0.lookup (normalize_colname s) with
      | none => rfl
      | some v =>
        exact absurd ((hkeys f0 hf0mem (normalize_colname s)).mp (by rw [hl]; rfl))
          hsnotin
    obtain ⟨c, hc⟩ := projectRow_err parsed.select f0 ⟨s, hsmem, hlook⟩
    refine ⟨c, ?_⟩
    rw [execute_query.eq_def, hfil]
    simp only [if_neg hstar, hcount, Bool.false_eq_true, if_false, ite_false]
    rw [projectRows.eq_def]
    simp only [hc]
  · intro rows parsed hstar hcount hfil
    rw [execute_query.eq_def, hfil]
    simp only [if_neg hstar, hcount, Bool.false_eq_true, if_false, ite_false]
    rfl

/-- C5 witness: the error when one row survives; the empty success when
none does. -/
theorem c5_unknown_column_needs_surviving_row_witness :
    (∃ c, execute_query [[("id", "1")]] ⟨["nosuch"], "t", none, "q"⟩ =
      .error (.keyErr c)) ∧
    execute_query [] ⟨["nosuch"], "t", none, "q"⟩ = .ok (.rowsRes []) := by
  constructor
  · refine c5_unknown_column_needs_surviving_row.1 [[("id", "1")]]
      ⟨["nosuch"], "t", none, "q"⟩ ["id"] [("id", "1")] [] (by decide) (by decide)
      ?_ ⟨"nosuch", by decide, by decide⟩ (by decide)
    intro r hr c
    simp only [List.mem_singleton] at hr
    subst hr
    by_cases hc : c = "id"
    · simp [List.lookup, hc]
    · have hb : (c == "id") = false := beq_eq_false_iff_ne.mpr hc
      simp [List.lookup, hb, hc]
  · exact c5_unknown_column_needs_surviving_row.2 [] ⟨["nosuch"], "t", none, "q"⟩
      (by decide) (by decide) (by decide)

/-- C7 counterexample: `WHERE and or` is a WHERE clause of exactly two
tokens, yet the query parses successfully (both tokens are consumed as
connectors) — so a two-token WHERE clause does not always fail. -/
theorem c7_two_token_where_counterexample :
    shlexSplit "and or" = .ok ["and", "or"] ∧
    (["and", "or"] : List String).length = 2 ∧
    parse_query "SELECT a FROM t WHERE and or" =
      .ok ⟨["a"], "t", some [CondElem.logop LogOp.AND, CondElem.logop LogOp.OR],
        "SELECT a FROM t WHERE and or"⟩ := by
  refine ⟨by decide, by decide, by decide⟩


/-- C7 amended: `parse_query` raises `ParseError` exactly when the text
lacks a case-insensitive `select` keyword or a space-delimited ` from `,
or when a present WHERE clause tokenizes successfully but is malformed
(scanning past AND/OR keywords, a condition group with fewer than three
tokens remaining, or an invalid middle operator token); and a WHERE
clause of exactly two tokens is malformed UNLESS both tokens are AND/OR
keywords. -/
theorem c7_parse_error_characterization :
    (∀ sql : String,
      (∃ m, parse_query sql = .error (.parseErr m)) ↔
        (¬(substrIn "select" (strLower (stripSemi sql)) = true ∧
            substrIn " from " (strLower (stripSemi sql)) = true) ∨
          ∃ tp wp toks, whereSplit (remainingOf sql) = some (tp, wp) ∧
            shlexSplit wp = .ok toks ∧ whereMalformed toks = true)) ∧
    (∀ t1 t2 : String,
      (∃ m, parseWhereTokens [t1, t2] = .error (.parseErr m)) ↔
        ¬(isLogTok t1 = true ∧ isLogTok t2 = true)) := by
  constructor
  · intro sql
    rw [parse_query.eq_def]
    by_cases hc : substrIn "select" (strLower (stripSemi sql)) = true ∧
        substrIn " from " (strLower (stripSemi sql)) = true
    · rw [if_pos hc]
      cases hw : whereSplit (remainingOf sql) with
      | none =>
        simp only
        constructor
        · rintro ⟨m, hm⟩
          cases hm
        · rintro (h | ⟨tp, wp, toks, hws, _, _⟩)
          · exact absurd hc h
          · cases hws
      | some p =>
        obtain ⟨tp0, wp0⟩ := p
        simp only
        cases hs : shlexSplit wp0 with
        | error e =>
          have hpwc : parse_where_clause wp0 = .error e := by
            unfold parse_where_clause
            rw [hs]
          rw [hpwc]
          obtain ⟨m0, rfl⟩ := shlexSplit_err hs
          constructor
          · rintro ⟨m, hm⟩
            injection hm with hh
            cases hh
          · rintro (h | ⟨tp, wp, toks, hws, hsp, _⟩)
            · exact absurd hc h
            · obtain ⟨rfl, rfl⟩ := Prod.mk.inj (Option.some.inj hws)
              rw [hs] at hsp
              cases hsp
        | ok toks0 =>
          have hpwc : parse_where_clause wp0 = parseWhereTokens toks0 := by
            unfold parse_where_clause
            rw [hs]
          rw [hpwc]
          cases hp : parseWhereTokens toks0 with
          | error e =>
            constructor
            · rintro ⟨m, hm⟩
              injection hm with hh
              refine Or.inr ⟨tp0, wp0, toks0, rfl, hs, ?_⟩
              exact (parseWhereTokens_err_iff toks0).mp
                ⟨m, hp.trans (congrArg Except.error hh)⟩
            · rintro (h | ⟨tp, wp, toks, hws, hsp, hmal⟩)
              · exact absurd hc h
              · obtain ⟨rfl, rfl⟩ := Prod.mk.inj (Option.some.inj hws)
                rw [hs] at hsp
                obtain rfl := (Except.ok.inj hsp)
                obtain ⟨m, hm⟩ := (parseWhereTokens_err_iff toks0).mpr hmal
                rw [hp] at hm
                injection hm with hh
                exact ⟨m, by rw [hh]⟩
          | ok conds =>
            constructor
            · rintro ⟨m, hm⟩
              cases hm
            · rintro (h | ⟨tp, wp, toks, hws, hsp, hmal⟩)
              · exact absurd hc h
              · obtain ⟨rfl, rfl⟩ := Prod.mk.inj (Option.some.inj hws)
                rw [hs] at hsp
                obtain rfl := (Except.ok.inj hsp)
                obtain ⟨m, hm⟩ := (parseWhereTokens_err_iff toks0).mpr hmal
                rw [hp] at hm
                cases hm
    · rw [if_neg hc]
      constructor
      · intro _
        exact Or.inl hc
      · intro _
        exact ⟨"Query must contain SELECT and FROM clauses.", rfl⟩
  · intro t1 t2
    rw [parseWhereTokens_err_iff]
    rw [whereMalformed.eq_def]
    by_cases h1 : isLogTok t1 = true
    · simp only [h1, if_true]
      rw [whereMalformed.eq_def]
      by_cases h2 : isLogTok t2 = true
      · simp [whereMalformed, h1, h2]
      · simp [whereMalformed, h1, h2]
    · simp [whereMalformed, h1]

/-- C7 witness: the two-token WHERE clause `x =` (not both AND/OR)
raises `ParseError`. -/
theorem c7_parse_error_characterization_witness :
    ∃ m, parseWhereTokens ["x", "="] = .error (.parseErr m) :=
  (c7_parse_error_characterization.2 "x" "=").mpr (by decide)
